import Mathlib

/-!
Verification of the FPL draft-data pipeline (`data_fetcher.py`) against its
natural-language specification.

The embedding is shallow:
* JSON payloads are modelled by the inductive `Json`; Python `None` results of
  the HTTP client are `Option.none`.
* Python dictionaries are association lists; lookup takes the last binding
  (assignment overwrites).  Python requires dictionary keys to be hashable,
  so only scalar JSON values ever serve as keys; key equality is the
  constructor-strict `scalarEq` (the Python cross-type equality `True == 1`
  is outside this model, as are floating-point numbers: all numbers are
  integers here).
* Machine floats (`time.time()`, point values) are modelled as integers.
* Python exceptions escaping `fetch_fpl_data` are modelled by `Except` with
  error value `()`; the pandas DataFrame constructors are modelled by typed
  decoding restricted to the columns the pipeline reads.
* Network traffic is an oracle `Net : String → Option Json` giving, per URL,
  the result of `_get_json_from_url`; the list of URLs requested is returned
  alongside the result so that cache hits are observably network-free.
-/

/-- A JSON value, as decoded by `response.json()`. -/
inductive Json where
  | null
  | bool (b : Bool)
  | num (n : Int)
  | str (s : String)
  | arr (elems : List Json)
  | obj (kvs : List (String × Json))

/-- Python truthiness of a decoded JSON value: `None`, `False`, `0`, the
empty string, the empty list and the empty dict are falsy. -/
def truthy : Json → Bool
  | .null => false
  | .bool b => b
  | .num n => decide (n ≠ 0)
  | .str s => !s.isEmpty
  | .arr l => !l.isEmpty
  | .obj kvs => !kvs.isEmpty

/-- Python truthiness of an optional JSON value (`None` is falsy). -/
def truthyOpt : Option Json → Bool
  | Option.none => false
  | some j => truthy j

/-- Lookup in a string-keyed dictionary; the last binding wins, matching
assignment order in a Python dict. -/
def dictLookup (kvs : List (String × Json)) (k : String) : Option Json :=
  (kvs.reverse.find? (fun p => p.1 == k)).map (fun p => p.2)

/-- Whether a JSON value may be a Python dictionary key (is hashable):
lists and dicts are unhashable. -/
def hashableKey : Json → Bool
  | .arr _ => false
  | .obj _ => false
  | _ => true

/-- Equality of scalar JSON values, used for dictionary keys.  Strict by
constructor; both sides must be scalars.  Models Python `==` on the
hashable values that occur as keys (the cross-type case `True == 1` is not
modelled). -/
def scalarEq : Json → Json → Bool
  | .null, .null => true
  | .bool a, .bool b => a == b
  | .num a, .num b => a == b
  | .str a, .str b => a == b
  | _, _ => false

/-- Lookup in a JSON-keyed dictionary via `scalarEq`; the last binding wins. -/
def jLookup (d : List (Json × Json)) (k : Json) : Option Json :=
  (d.reverse.find? (fun p => scalarEq p.1 k)).map (fun p => p.2)

/-- Membership of a JSON-keyed dictionary, `k in d` in Python. -/
def jMem (d : List (Json × Json)) (k : Json) : Bool :=
  d.any (fun p => scalarEq p.1 k)

/-- Whether the first list is a prefix of the second. -/
def isPrefixOfList : List Char → List Char → Bool
  | [], _ => true
  | _ :: _, [] => false
  | a :: as, b :: bs => a == b && isPrefixOfList as bs

/-- Whether `s` occurs as a contiguous run inside `t`. -/
def containsSub (s : List Char) : List Char → Bool
  | [] => s.isEmpty
  | c :: ts => isPrefixOfList s (c :: ts) || containsSub s ts

/-- Whether `s` occurs as a substring of `t` (Python `s in t` on strings). -/
def strContains (t s : String) : Bool :=
  containsSub s.data t.data

/-- The value of a digit run, accumulated left to right; `none` on any
non-digit character. -/
def digitsVal (acc : Nat) : List Char → Option Nat
  | [] => some acc
  | c :: cs => if c.isDigit then digitsVal (acc * 10 + (c.toNat - 48)) cs else Option.none

/-- Parse of an integer literal string (optional sign, then digits), the
integer fragment of Python `int(...)` and of the numeric-string parsing of
`pd.to_numeric` (leading or trailing whitespace and float literals are
outside this model). -/
def strToInt (s : String) : Option Int :=
  match s.data with
  | [] => Option.none
  | '-' :: cs => if cs.isEmpty then Option.none else (digitsVal 0 cs).map (fun n => -(n : Int))
  | '+' :: cs => if cs.isEmpty then Option.none else (digitsVal 0 cs).map (fun n => (n : Int))
  | cs => (digitsVal 0 cs).map (fun n => (n : Int))


/-- The Python expression `k in j` for a string `k`: key membership on a
dict, element membership on a list, substring on a string, `TypeError`
(modelled as `Except.error`) otherwise. -/
def pyIn (k : String) : Json → Except Unit Bool
  | .obj kvs => .ok (kvs.any (fun p => p.1 == k))
  | .arr l => .ok (l.any (fun e => match e with
      | .str s => s == k
      | _ => false))
  | .str t => .ok (strContains t k)
  | _ => .error ()

/-- The Python expression `j.get(k)`: `None` default on a dict, an
`AttributeError` (modelled as `Except.error`) on anything else. -/
def pyGet (j : Json) (k : String) : Except Unit (Option Json) :=
  match j with
  | .obj kvs => .ok (dictLookup kvs k)
  | _ => .error ()

/-- `isinstance(x, list)` for an optional JSON value. -/
def isListOpt : Option Json → Bool
  | some (.arr _) => true
  | _ => false

/-! ## The HTTP JSON client (`_get_json_from_url`, lines 24-39)

The outcome of `requests.get` is abstracted: either the request itself
raised a `RequestException`, or a response arrived carrying an HTTP status
code and a body whose JSON parse either succeeded (`some j`) or failed
(`none`, in which case `response.json()` raises `JSONDecodeError`). -/

/-- Abstract outcome of `requests.get(url)`. -/
inductive HttpOutcome where
  | netError
  | response (status : Nat) (body : Option Json)

/-- Whether `response.raise_for_status()` raises: it raises `HTTPError`
exactly for status codes 4xx and 5xx. -/
def raiseForStatus (status : Nat) : Bool :=
  decide (400 ≤ status ∧ status < 600)

/-- `_get_json_from_url`: returns the decoded body on success; a
`RequestException` (network failure or the `HTTPError` from
`raise_for_status`) and a `JSONDecodeError` are caught and yield `none`.
The function is total: no exception escapes to the caller. -/
def get_json_from_url : HttpOutcome → Option Json
  | .netError => Option.none
  | .response status body =>
      if raiseForStatus status then Option.none
      else body

/-! ## Constants and URL construction (lines 13-22) -/

def BASE_URL : String := "https://draft.premierleague.com/api"

def BOOTSTRAP_URL : String := BASE_URL ++ "/bootstrap-static"

/-- `LEAGUE_URL_TEMPLATE.format(league_id=league_id)`. -/
def leagueURL (league_id : Int) : String :=
  BASE_URL ++ "/league/" ++ toString league_id ++ "/details"

/-- `DRAFT_CHOICES_URL_TEMPLATE.format(league_id=league_id)`. -/
def draftURL (league_id : Int) : String :=
  BASE_URL ++ "/draft/" ++ toString league_id ++ "/choices"

/-- `LIVE_EVENT_URL_TEMPLATE.format(gameweek=gameweek)`. -/
def liveURL (gameweek : Int) : String :=
  BASE_URL ++ "/event/" ++ toString gameweek ++ "/live"

def CACHE_DURATION_SECONDS : Int := 600

/-! ## Typed rows

The pandas DataFrames are modelled as lists of typed rows restricted to the
columns the pipeline reads.  Records whose key fields (ids and foreign
keys) are missing or not integers are outside this embedding and are
dropped by the decoders; the real bootstrap payload always carries them. -/

/-- One record of `bootstrap["elements"]`, restricted to the columns used:
`id`, `team` (team foreign key) and `element_type` (position foreign key). -/
structure Element where
  id : Int
  team : Int
  element_type : Int

/-- One record of `bootstrap["teams"]`, restricted to `id` and `name`
(`none` models a missing `name` key, a NaN cell in pandas). -/
structure Team where
  id : Int
  name : Option Json

/-- One record of `bootstrap["element_types"]`, restricted to `id` and
`singular_name`. -/
structure Position where
  id : Int
  singular_name : Option Json

/-- One per-player stat record gathered from a live-gameweek payload
(lines 133-137): the dict `player_data.get("stats", \x7b\x7d)` with the keys
`id` (from the element key, via `int(player_id)`) and `gameweek` written
into it.  Only the `total_points` entry of the stat bag is read later;
`none` models a record whose stat bag lacks that key. -/
structure StatRec where
  id : Int
  gameweek : Int
  total_points : Option Json

/-- A row of the unified player table after enrichment: team name and
position from the two left joins (lines 86-92), `owner` from the draft
mapping (line 114, `none` is NaN), and the cumulative trailing-window
points (line 160). -/
structure Player where
  id : Int
  team : Int
  element_type : Int
  team_name : Option Json
  position : Option Json
  owner : Option Json
  cumulative_total_points : Int

def decodeElement : Json → Option Element
  | .obj kvs =>
      match dictLookup kvs "id", dictLookup kvs "team", dictLookup kvs "element_type" with
      | some (.num i), some (.num t), some (.num et) => some ⟨i, t, et⟩
      | _, _, _ => Option.none
  | _ => Option.none

def decodeTeam : Json → Option Team
  | .obj kvs =>
      match dictLookup kvs "id" with
      | some (.num i) => some ⟨i, dictLookup kvs "name"⟩
      | _ => Option.none
  | _ => Option.none

def decodePosition : Json → Option Position
  | .obj kvs =>
      match dictLookup kvs "id" with
      | some (.num i) => some ⟨i, dictLookup kvs "singular_name"⟩
      | _ => Option.none
  | _ => Option.none

/-! ## Enrichment joins (lines 86-92)

A pandas left merge keeps every left row: a left row with no match on the
join key yields one output row with a NaN enrichment cell; a left row with
several matches (duplicate keys on the right) is repeated once per match. -/

/-- An element row joined with its team name. -/
structure ElementT where
  base : Element
  team_name : Option Json

/-- An element row joined with team name and position label. -/
structure ElementTP where
  base : Element
  team_name : Option Json
  position : Option Json

/-- The output rows a left merge produces from one left row: one row per
match on the key, or a single row with a NaN cell when nothing matches. -/
def teamRow (teams : List Team) (p : Element) : List ElementT :=
  match teams.filter (fun t => t.id == p.team) with
  | [] => [⟨p, Option.none⟩]
  | ms => ms.map (fun t => ⟨p, t.name⟩)

/-- Left merge of the player rows with `teams_df[["id", "name"]]` on
`team = id`, keeping the `name` column as `team_name` (lines 86-88). -/
def joinTeams (players : List Element) (teams : List Team) : List ElementT :=
  players.flatMap (teamRow teams)

/-- The rows one team-joined row produces in the position merge. -/
def posRow (positions : List Position) (p : ElementT) : List ElementTP :=
  match positions.filter (fun q => q.id == p.base.element_type) with
  | [] => [⟨p.base, p.team_name, Option.none⟩]
  | ms => ms.map (fun q => ⟨p.base, p.team_name, q.singular_name⟩)

/-- Left merge with `positions_df[["id", "singular_name"]]` on
`element_type = id`, keeping `singular_name` as `position` (lines 90-92). -/
def joinPositions (players : List ElementT) (positions : List Position) : List ElementTP :=
  players.flatMap (posRow positions)

/-! ## Ownership resolution (lines 96-114) -/

/-- The loop of lines 96-99 building `entry_id_to_name` from
`league_data.get("league_entries", [])`: entries that are not dicts or
lack the `entry_id` or `entry_name` key are skipped.  Iterating a dict
(its string keys) or a string (its characters) yields non-dict items that
are all skipped; iterating any other non-list value is a `TypeError`.
Inserting an unhashable key is a `TypeError`. -/
def entryIdToName (league_data : Json) : Except Unit (List (Json × Json)) :=
  match league_data with
  | .obj kvs =>
      match (dictLookup kvs "league_entries").getD (.arr []) with
      | .arr entries =>
          entries.foldlM (fun d e =>
            match e with
            | .obj ekvs =>
                match dictLookup ekvs "entry_id", dictLookup ekvs "entry_name" with
                | some eid, some ename =>
                    if hashableKey eid then .ok (d ++ [(eid, ename)])
                    else .error ()
                | _, _ => .ok d
            | _ => .ok d) []
      | .obj _ => .ok []
      | .str _ => .ok []
      | _ => .error ()
  | _ => .error ()

/-- One step of the loop of lines 107-112 over `draft_picks_data["choices"]`:
process one pick against the accumulated `player_to_team` dict.  A pick
that is not a dict, or whose `element` or `entry` value is absent or falsy,
is skipped; an unhashable `entry` makes the membership test raise, an
unhashable `element` makes the insertion raise. -/
def processPick (e2n : List (Json × Json)) (d : List (Json × Json)) (pick : Json) :
    Except Unit (List (Json × Json)) :=
  match pick with
  | .obj pkvs =>
      match dictLookup pkvs "element", dictLookup pkvs "entry" with
      | some pv, some ev =>
          if truthy pv && truthy ev then
            if hashableKey ev then
              if jMem e2n ev then
                if hashableKey pv then
                  .ok (d ++ [(pv, (jLookup e2n ev).getD .null)])
                else .error ()
              else .ok d
            else .error ()
          else .ok d
      | _, _ => .ok d
  | _ => .ok d

/-- Lines 105-112: build `player_to_team` from the draft-choices payload.
The mapping stays empty when the payload is `None` or falsy, or when its
`choices` entry is not a list; `.get` on a truthy non-dict payload is an
`AttributeError`. -/
def playerToTeam (draft_picks_data : Option Json) (e2n : List (Json × Json)) :
    Except Unit (List (Json × Json)) :=
  match draft_picks_data with
  | Option.none => .ok []
  | some j =>
      if truthy j then
        match j with
        | .obj kvs =>
            match dictLookup kvs "choices" with
            | some (.arr picks) => picks.foldlM (processPick e2n) []
            | _ => .ok []
        | _ => .error ()
      else .ok []

/-- Line 114: `players_df["owner"] = players_df["id"].map(player_to_team)`;
ids absent from the mapping get NaN. -/
def withOwner (rows : List ElementTP) (p2t : List (Json × Json)) :
    List (Element × Option Json × Option Json × Option Json) :=
  rows.map (fun r => (r.base, r.team_name, r.position, jLookup p2t (.num r.base.id)))

/-! ## Current gameweek and live stats (lines 117-143) -/

/-- Lines 120-123: the first entry of the events list that is a dict with a
truthy `is_current` value. -/
def currentGwEvent (events : List Json) : Option Json :=
  events.find? (fun e =>
    match e with
    | .obj ekvs => truthyOpt (dictLookup ekvs "is_current")
    | _ => false)

/-- Lines 120-123: `current_gw` is the `id` of the current event, else 1.
A current event without an integer `id` fails (a `KeyError`, or a
`TypeError` further down in `range`); iterating a non-sequence events
value is a `TypeError`.  Iterating a dict or string yields only non-dict
items, hence no current event. -/
def currentGw (events : Json) : Except Unit Int :=
  match events with
  | .arr l =>
      match currentGwEvent l with
      | Option.none => .ok 1
      | some e =>
          match e with
          | .obj ekvs =>
              match dictLookup ekvs "id" with
              | some (.num n) => .ok n
              | _ => .error ()
          | _ => .ok 1
  | .obj _ => .ok 1
  | .str _ => .ok 1
  | _ => .error ()

/-- The integers `[a, a+1, ..., b-1]`, Python `list(range(a, b))`. -/
def rangeList (a b : Int) : List Int :=
  (List.range (b - a).toNat).map (fun (i : Nat) => a + (i : Int))

/-- Line 124: `list(range(max(1, current_gw - 3), current_gw + 1))`. -/
def gameweeksToFetch (current_gw : Int) : List Int :=
  rangeList (max 1 (current_gw - 3)) (current_gw + 1)

/-- Lines 133-137, one element entry `(player_id, player_data)` of a live
payload: `stats = player_data.get("stats", \x7b\x7d)` then `stats["id"]` and
`stats["gameweek"]` are assigned.  A non-dict `player_data` is an
`AttributeError`, a non-dict stat bag makes the assignment raise, and a
non-integer element key makes `int(player_id)` raise. -/
def decodeStatEntry (gw : Int) (kv : String × Json) : Except Unit StatRec :=
  match kv.2 with
  | .obj pkvs =>
      match (dictLookup pkvs "stats").getD (.obj []) with
      | .obj skvs =>
          match strToInt kv.1 with
          | some pid => .ok ⟨pid, gw, dictLookup skvs "total_points"⟩
          | Option.none => .error ()
      | _ => .error ()
  | _ => .error ()

/-- Lines 130-137, one iteration: the stat records of one live payload.
A payload that is `None` or falsy, or whose `elements` entry is not a
dict, contributes nothing. -/
def gwStats (net : String → Option Json) (gw : Int) : Except Unit (List StatRec) :=
  match net (liveURL gw) with
  | Option.none => .ok []
  | some j =>
      if truthy j then
        match pyGet j "elements" with
        | .error _ => .error ()
        | .ok (some (.obj elems)) => elems.mapM (decodeStatEntry gw)
        | .ok _ => .ok []
      else .ok []

/-- Lines 128-137: fetch each gameweek in order, gather the stat records,
and report the URLs requested (also when a later step raises). -/
def collectStats (net : String → Option Json) : List Int → List String × Except Unit (List StatRec)
  | [] => ([], .ok [])
  | gw :: rest =>
      match gwStats net gw with
      | .error _ => ([liveURL gw], .error ())
      | .ok recs =>
          let next := collectStats net rest
          (liveURL gw :: next.1, next.2.map (fun more => recs ++ more))

/-! ## Cumulative points (lines 145-160) -/

/-- `pd.to_numeric(..., errors="coerce")` on a JSON value, integer
fragment: numbers pass through, numeric strings parse, booleans cast to
0/1, everything else is NaN (`none`). -/
def toNumeric : Json → Option Int
  | .num n => some n
  | .str s => strToInt s
  | .bool b => some (if b then 1 else 0)
  | _ => Option.none

/-- Line 145: the left merge of the player rows with the gameweek stats on
`id`, keeping only the id and the `total_points` cell of each merged row
(`none` is the NaN cell of an unmatched player row or of a record without
the key). -/
def mergedRow (stats : List StatRec) (i : Int) : List (Int × Option Json) :=
  match stats.filter (fun s => s.id == i) with
  | [] => [(i, Option.none)]
  | ms => ms.map (fun s => (i, s.total_points))

def mergedPoints (ids : List Int) (stats : List StatRec) : List (Int × Option Json) :=
  ids.flatMap (mergedRow stats)

/-- One merged `total_points_gw_stats` cell after
`pd.to_numeric(errors="coerce")`, as it contributes to the group sum
(NaN contributes zero). -/
def coercedPoints (c : Option Json) : Int :=
  (c.bind toNumeric).getD 0

/-- Lines 150-160: the cumulative points attached to a player row with id
`i`.  The column `total_points_gw_stats` exists in the merged frame iff
some gathered stat record carries a `total_points` key (the player frame
always has the season `total_points` column, so the collision suffix is
applied exactly then); when it is absent the column is zero-filled.
Otherwise the value is the group sum over the merged rows with this id,
coercing each cell and counting NaN as zero. -/
def cumulativeFor (ids : List Int) (stats : List StatRec) (i : Int) : Int :=
  if stats.any (fun s => s.total_points.isSome) then
    (((mergedPoints ids stats).filter (fun r => r.1 == i)).map
      (fun r => coercedPoints r.2)).sum
  else 0

/-- Lines 145-160 assembled: attach `cumulative_total_points` to every
enriched row. -/
def withCumulative (rows : List (Element × Option Json × Option Json × Option Json))
    (stats : List StatRec) : List Player :=
  rows.map (fun r =>
    ⟨r.1.id, r.1.team, r.1.element_type, r.2.1, r.2.2.1, r.2.2.2,
     cumulativeFor (rows.map (fun q => q.1.id)) stats r.1.id⟩)

/-! ## Segmentation (lines 164-169) -/

/-- Descending sort by cumulative points,
`sort_values("cumulative_total_points", ascending=False)` (the order of
rows with equal keys is unspecified in the source; any sorted permutation
models it). -/
def sortByPointsDesc (l : List Player) : List Player :=
  List.insertionSort
    (fun a b => b.cumulative_total_points ≤ a.cumulative_total_points) l

/-- Keep-first deduplication under `scalarEq`; models the value set built
by `set(players_df["owner"].dropna().unique())` (iteration order of a
Python set is immaterial to every property proved below). -/
def dedupScalar : List Json → List Json
  | [] => []
  | x :: xs => x :: (dedupScalar xs).filter (fun y => !scalarEq x y)

/-- The distinct owner names of the table (line 167). -/
def ownersOf (players : List Player) : List Json :=
  dedupScalar (players.filterMap (fun p => p.owner))

/-- The elementwise comparison `players_df["owner"] == team`: NaN compares
unequal to everything; a present owner value is compared with the (scalar)
owner key. -/
def ownerIs (o : Json) (p : Player) : Bool :=
  match p.owner with
  | some v => scalarEq v o
  | Option.none => false

/-- Line 166: the partition of one owner,
`players_df[players_df["owner"] == team]` sorted descending. -/
def teamTable (players : List Player) (o : Json) : List Player :=
  sortByPointsDesc (players.filter (ownerIs o))

/-- Lines 165-168: the per-owner tables, keyed by the distinct owner
values.  Hashing an unhashable owner value (inside `unique`/`set`) is a
`TypeError`. -/
def teamsTables (players : List Player) : Except Unit (List (Json × List Player)) :=
  if players.all (fun p =>
      match p.owner with
      | some v => hashableKey v
      | Option.none => true) then
    .ok ((ownersOf players).map (fun o => (o, teamTable players o)))
  else .error ()

/-- Line 169: the undrafted table, `players_df[players_df["owner"].isna()]`
sorted descending. -/
def undraftedTable (players : List Player) : List Player :=
  sortByPointsDesc (players.filter (fun p => p.owner.isNone))

/-! ## Cache and orchestrator (lines 19-22, 41-177) -/

/-- The triple returned by a successful fetch: the unified player table,
the per-owner tables, and the undrafted table. -/
abbrev PipelineResult := List Player × List (Json × List Player) × List Player

/-- One value of `DATA_CACHE`: a timestamp and the cached triple. -/
structure CacheEntry where
  timestamp : Int
  data : PipelineResult

/-- The in-memory cache `DATA_CACHE`, keyed by league id. -/
abbrev Cache := List (Int × CacheEntry)

def cacheLookup (c : Cache) (k : Int) : Option CacheEntry :=
  (c.reverse.find? (fun p => p.1 == k)).map (fun p => p.2)

def cacheInsert (c : Cache) (k : Int) (e : CacheEntry) : Cache :=
  c ++ [(k, e)]

/-- What one call of `fetch_fpl_data` produces: the returned value (`ok
none` is the `(None, None, None)` triple, `ok (some r)` a successful
triple, `error` an escaped Python exception), the cache state after the
call, and the URLs requested during the call, in order. -/
structure FetchReturn where
  result : Except Unit (Option PipelineResult)
  cache : Cache
  calls : List String

/-- The entry `bootstrap[k]` once validated to be a list (the defaults are
unreachable after validation). -/
def getListD (j : Json) (k : String) : List Json :=
  match j with
  | .obj kvs =>
      match dictLookup kvs k with
      | some (.arr l) => l
      | _ => []
  | _ => []

/-- Line 120: `bootstrap.get("events", [])`; the bootstrap value is a dict
whenever this is reached. -/
def eventsOf (j : Json) : Json :=
  match j with
  | .obj kvs => (dictLookup kvs "events").getD (.arr [])
  | _ => .arr []

/-- Lines 67-70: the shape-validation loop over `elements`, `teams`,
`element_types`, in order.  `ok true` means every entry is a list, `ok
false` that some entry is not (the early `return None, None, None`),
`error` that `bootstrap.get` raised on a non-dict payload. -/
def validateBootstrapLists (bj : Json) : Except Unit Bool :=
  match pyGet bj "elements" with
  | .error e => .error e
  | .ok el =>
    if !isListOpt el then .ok false
    else
      match pyGet bj "teams" with
      | .error e => .error e
      | .ok t =>
        if !isListOpt t then .ok false
        else
          match pyGet bj "element_types" with
          | .error e => .error e
          | .ok et => if !isListOpt et then .ok false else .ok true

/-- Lines 57-177: the uncached path of `fetch_fpl_data`, from the bootstrap
fetch to the cache write. -/
def freshFetch (net : String → Option Json) (cache : Cache) (current_time : Int)
    (league_id : Int) : FetchReturn :=
  let calls1 := [BOOTSTRAP_URL]
  match net BOOTSTRAP_URL with
  | Option.none => ⟨.ok Option.none, cache, calls1⟩
  | some bj =>
    if !truthy bj then ⟨.ok Option.none, cache, calls1⟩
    else
      match pyIn "elements" bj with
      | .error _ => ⟨.error (), cache, calls1⟩
      | .ok false => ⟨.ok Option.none, cache, calls1⟩
      | .ok true =>
        match validateBootstrapLists bj with
        | .error _ => ⟨.error (), cache, calls1⟩
        | .ok false => ⟨.ok Option.none, cache, calls1⟩
        | .ok true =>
          let elements := (getListD bj "elements").filterMap decodeElement
          let teams := (getListD bj "teams").filterMap decodeTeam
          let positions := (getListD bj "element_types").filterMap decodePosition
          let calls2 := calls1 ++ [leagueURL league_id]
          match net (leagueURL league_id) with
          | Option.none => ⟨.ok Option.none, cache, calls2⟩
          | some lj =>
            if !truthy lj then ⟨.ok Option.none, cache, calls2⟩
            else
              match pyIn "league_entries" lj with
              | .error _ => ⟨.error (), cache, calls2⟩
              | .ok false => ⟨.ok Option.none, cache, calls2⟩
              | .ok true =>
                let ptp := joinPositions (joinTeams elements teams) positions
                match entryIdToName lj with
                | .error _ => ⟨.error (), cache, calls2⟩
                | .ok e2n =>
                  let calls3 := calls2 ++ [draftURL league_id]
                  match playerToTeam (net (draftURL league_id)) e2n with
                  | .error _ => ⟨.error (), cache, calls3⟩
                  | .ok p2t =>
                    let rows := withOwner ptp p2t
                    match currentGw (eventsOf bj) with
                    | .error _ => ⟨.error (), cache, calls3⟩
                    | .ok cg =>
                      let sres := collectStats net (gameweeksToFetch cg)
                      let calls4 := calls3 ++ sres.1
                      match sres.2 with
                      | .error _ => ⟨.error (), cache, calls4⟩
                      | .ok stats =>
                        let unified := withCumulative rows stats
                        match teamsTables unified with
                        | .error _ => ⟨.error (), cache, calls4⟩
                        | .ok tt =>
                          let result := (unified, tt, undraftedTable unified)
                          ⟨.ok (some result),
                           cacheInsert cache league_id ⟨current_time, result⟩,
                           calls4⟩

/-- Lines 41-55 plus the uncached path: `fetch_fpl_data(league_id,
force_refresh)`, with the cache, the clock and the network passed
explicitly.  The cache check of line 52 short-circuits: not forced, an
entry exists, and the entry is younger than `CACHE_DURATION_SECONDS`. -/
def fetch_fpl_data (net : String → Option Json) (cache : Cache) (current_time : Int)
    (league_id : Int) (force_refresh : Bool) : FetchReturn :=
  match (if force_refresh then Option.none else cacheLookup cache league_id) with
  | some e =>
      if current_time - e.timestamp < CACHE_DURATION_SECONDS then
        ⟨.ok (some e.data), cache, []⟩
      else freshFetch net cache current_time league_id
  | Option.none => freshFetch net cache current_time league_id

/-- Modelled from the spec: the performance-rank step of the player
enrichment engine (spec section 4.4, step 4, and section 8 property 3) is
code of this repository that is not under src/ (only the pipeline variant
without the expectation metrics is); the step function is transcribed from
the words of the spec, over exact rationals for the expectation delta. -/
def performanceRank (delta : ℚ) : Int :=
  if 8 ≤ delta then 10
  else if 4 ≤ delta then 8
  else if 2 ≤ delta then 7
  else if 0 ≤ delta then 6
  else if -2 < delta then 5
  else 1

/-! ## Statement vocabulary for the claims -/

/-- The skip conditions for one draft pick, as the specification states
them, with the entry clause restricted to hashable entry values: a pick
that is not a record, whose element value is absent or 0, whose entry
value is absent or 0, or whose entry is a hashable value that is not the
id of a well-formed league entry. -/
def pickSkippable (e2n : List (Json × Json)) (pick : Json) : Prop :=
  (∀ pkvs, pick ≠ .obj pkvs) ∨
  (∃ pkvs, pick = .obj pkvs ∧
    (dictLookup pkvs "element" = Option.none ∨
     dictLookup pkvs "element" = some (.num 0) ∨
     dictLookup pkvs "entry" = Option.none ∨
     dictLookup pkvs "entry" = some (.num 0) ∨
     (∃ ev, dictLookup pkvs "entry" = some ev ∧ hashableKey ev = true ∧
       jMem e2n ev = false)))

/-- A bootstrap payload the specification calls critically malformed: the
payload is `None`, or it is a record whose `elements`, `teams` or
`element_types` entry is not a list (a missing entry is not a list). -/
def badBootstrapPayload (b : Option Json) : Prop :=
  b = Option.none ∨ ∃ kvs, b = some (.obj kvs) ∧
    ¬(isListOpt (dictLookup kvs "elements") = true ∧
      isListOpt (dictLookup kvs "teams") = true ∧
      isListOpt (dictLookup kvs "element_types") = true)

/-- A league payload the specification calls critically malformed: `None`,
or a record without the `league_entries` key. -/
def badLeaguePayload (l : Option Json) : Prop :=
  l = Option.none ∨ ∃ kvs, l = some (.obj kvs) ∧
    dictLookup kvs "league_entries" = Option.none


theorem mem_rangeList {gw a b : Int} : gw ∈ rangeList a b ↔ a ≤ gw ∧ gw < b := by
  simp only [rangeList, List.mem_map, List.mem_range]
  constructor
  · rintro ⟨i, hi, rfl⟩
    omega
  · rintro ⟨h1, h2⟩
    exact ⟨(gw - a).toNat, by omega, by omega⟩

theorem collectStats_calls (net : String → Option Json) (gws : List Int)
    (stats : List StatRec) (h : (collectStats net gws).2 = .ok stats) :
    (collectStats net gws).1 = gws.map liveURL := by
  induction gws generalizing stats with
  | nil => rfl
  | cons gw rest ih =>
      unfold collectStats at h ⊢
      rcases hg : gwStats net gw with e | recs
      · rw [hg] at h
        exact Except.noConfusion
          (h : (Except.error () : Except Unit (List StatRec)) = Except.ok stats)
      · rw [hg] at h
        dsimp only at h ⊢
        rcases hnext : (collectStats net rest).2 with e | more
        · rw [hnext] at h
          exact Except.noConfusion
            (h : (Except.error e : Except Unit (List StatRec)) = Except.ok stats)
        · simp only [List.map_cons, List.cons.injEq, true_and]
          exact ih more hnext

/-- Claim C6: the gameweeks whose live stats are requested are exactly the
integers from max 1 (g - 3) to g, where g is the id of the event flagged
is_current in the bootstrap events list, or 1 when no event is flagged;
on a successful gathering pass the requested URLs are exactly the live
URLs of that window. -/
theorem gameweeks_window (events : Json) (g : Int) (h : currentGw events = .ok g) :
    (∀ gw, gw ∈ gameweeksToFetch g ↔ (max 1 (g - 3) ≤ gw ∧ gw ≤ g)) ∧
    (∀ l, events = .arr l → currentGwEvent l = Option.none → g = 1) ∧
    (∀ net stats, (collectStats net (gameweeksToFetch g)).2 = .ok stats →
      (collectStats net (gameweeksToFetch g)).1 = (gameweeksToFetch g).map liveURL) := by
  refine ⟨?_, ?_, ?_⟩
  · intro gw
    rw [gameweeksToFetch, mem_rangeList]
    omega
  · rintro l rfl hnone
    rw [currentGw, hnone] at h
    exact (Except.ok.inj h).symm
  · intro net stats hs
    exact collectStats_calls net _ stats hs

/-- Claim C9: performanceRank is the fixed step function of the
expectation delta: at least 8 gives 10, at least 4 gives 8, at least 2
gives 7, at least 0 gives 6, above -2 gives 5, and everything else gives
1; in particular the deltas 9, 5, 3, 1, -1, -3 give 10, 8, 7, 6, 5, 1. -/
theorem performanceRank_thresholds (d : ℚ) :
    (8 ≤ d → performanceRank d = 10) ∧
    (4 ≤ d → d < 8 → performanceRank d = 8) ∧
    (2 ≤ d → d < 4 → performanceRank d = 7) ∧
    (0 ≤ d → d < 2 → performanceRank d = 6) ∧
    (-2 < d → d < 0 → performanceRank d = 5) ∧
    (d ≤ -2 → performanceRank d = 1) := by
  unfold performanceRank
  refine ⟨?_, ?_, ?_, ?_, ?_, ?_⟩ <;> intros <;> split_ifs <;> first | rfl | linarith

theorem performanceRank_witness :
    (8 ≤ (9 : ℚ)) ∧ performanceRank 9 = 10 ∧ performanceRank 5 = 8 ∧
    performanceRank 3 = 7 ∧ performanceRank 1 = 6 ∧ performanceRank (-1) = 5 ∧
    performanceRank (-3) = 1 := by
  refine ⟨by norm_num, (performanceRank_thresholds 9).1 (by norm_num),
    (performanceRank_thresholds 5).2.1 (by norm_num) (by norm_num),
    (performanceRank_thresholds 3).2.2.1 (by norm_num) (by norm_num),
    (performanceRank_thresholds 1).2.2.2.1 (by norm_num) (by norm_num),
    (performanceRank_thresholds (-1)).2.2.2.2.1 (by norm_num) (by norm_num),
    (performanceRank_thresholds (-3)).2.2.2.2.2 (by norm_num)⟩

/-- Claim C8 counterexample: a 304 response, which is not a 2xx status,
carrying the valid JSON body of an empty record, is returned as a value
rather than as NONE, because raise_for_status raises only for 4xx and
5xx statuses. -/
theorem get_json_non2xx_value :
    get_json_from_url (.response 304 (some (.obj []))) = some (.obj []) := rfl

/-- Claim C8 (amended): the HTTP JSON client returns the decoded JSON
value of the body whenever the request succeeds with a status outside
4xx and 5xx, and returns NONE on a transport error, on a 4xx or 5xx
status, or on a body that is not valid JSON; it never raises (the model
is a total function).  The original claim said NONE on any non-2xx
status; a 3xx response with a valid JSON body is in fact returned. -/
theorem get_json_client_contract (o : HttpOutcome) :
    (o = .netError → get_json_from_url o = Option.none) ∧
    (∀ s b, o = .response s b → 400 ≤ s → s < 600 → get_json_from_url o = Option.none) ∧
    (∀ s, o = .response s Option.none → get_json_from_url o = Option.none) ∧
    (∀ s j, o = .response s (some j) → ¬(400 ≤ s ∧ s < 600) → get_json_from_url o = some j) := by
  refine ⟨?_, ?_, ?_, ?_⟩
  · rintro rfl; rfl
  · rintro s b rfl h4 h6
    simp [get_json_from_url, raiseForStatus, h4, h6]
  · rintro s rfl
    simp [get_json_from_url]
  · rintro s j rfl hns
    simp [get_json_from_url, raiseForStatus, hns]

theorem get_json_client_contract_witness :
    get_json_from_url .netError = Option.none ∧
    get_json_from_url (.response 404 (some .null)) = Option.none ∧
    get_json_from_url (.response 200 Option.none) = Option.none ∧
    get_json_from_url (.response 200 (some (.num 1))) = some (.num 1) :=
  ⟨(get_json_client_contract .netError).1 rfl,
   (get_json_client_contract _).2.1 404 (some .null) rfl (by norm_num) (by norm_num),
   (get_json_client_contract _).2.2.1 200 rfl,
   (get_json_client_contract _).2.2.2 200 (.num 1) rfl (by norm_num)⟩

theorem sortByPointsDesc_sorted (l : List Player) :
    List.Pairwise (fun a b => b.cumulative_total_points ≤ a.cumulative_total_points)
      (sortByPointsDesc l) := by
  haveI : IsTotal Player
      (fun a b => b.cumulative_total_points ≤ a.cumulative_total_points) :=
    ⟨fun a b => le_total _ _⟩
  haveI : IsTrans Player
      (fun a b => b.cumulative_total_points ≤ a.cumulative_total_points) :=
    ⟨fun a b c h1 h2 => le_trans h2 h1⟩
  exact List.sorted_insertionSort _ l

theorem sortByPointsDesc_perm (l : List Player) : (sortByPointsDesc l).Perm l :=
  List.perm_insertionSort _ l

theorem mem_sortByPointsDesc {p : Player} {l : List Player} :
    p ∈ sortByPointsDesc l ↔ p ∈ l :=
  List.mem_insertionSort _

/-- Claim C5: every per-owner partition and the undrafted partition are
sorted in descending order of cumulative_total_points: in each table
every earlier row has at least the cumulative points of every later
row. -/
theorem partitions_sorted_desc (players : List Player) (o : Json) :
    List.Pairwise (fun a b => b.cumulative_total_points ≤ a.cumulative_total_points)
      (teamTable players o) ∧
    List.Pairwise (fun a b => b.cumulative_total_points ≤ a.cumulative_total_points)
      (undraftedTable players) ∧
    (∀ tt, teamsTables players = .ok tt →
      ∀ x ∈ tt, List.Pairwise
        (fun a b => b.cumulative_total_points ≤ a.cumulative_total_points) x.2) := by
  refine ⟨sortByPointsDesc_sorted _, sortByPointsDesc_sorted _, ?_⟩
  intro tt htt x hx
  unfold teamsTables at htt
  split at htt
  · cases htt
    rcases List.mem_map.mp hx with ⟨o', _, rfl⟩
    exact sortByPointsDesc_sorted _
  · cases htt

theorem bootstrap_mem_freshFetch_calls (net : String → Option Json) (cache : Cache)
    (t lid : Int) : BOOTSTRAP_URL ∈ (freshFetch net cache t lid).calls := by
  unfold freshFetch
  dsimp only
  repeat' split
  all_goals simp

/-- Claim C1: a call of fetch_fpl_data returns the previously stored
triple unchanged, touching neither the cache nor the network, precisely
when force_refresh is false, a cache entry exists for the league id, and
the current time minus the entry timestamp is under 600 seconds; in the
complementary case a fresh fetch is performed, observable as a request
to the bootstrap URL. -/
theorem fetch_cache_ttl (net : String → Option Json) (cache : Cache)
    (current_time league_id : Int) (force_refresh : Bool) :
    (∀ e, force_refresh = false → cacheLookup cache league_id = some e →
        current_time - e.timestamp < CACHE_DURATION_SECONDS →
        fetch_fpl_data net cache current_time league_id force_refresh =
          ⟨.ok (some e.data), cache, []⟩) ∧
    ((force_refresh = true ∨ cacheLookup cache league_id = Option.none ∨
        (∃ e, cacheLookup cache league_id = some e ∧
          CACHE_DURATION_SECONDS ≤ current_time - e.timestamp)) →
        BOOTSTRAP_URL ∈ (fetch_fpl_data net cache current_time league_id force_refresh).calls) := by
  constructor
  · rintro e rfl hl hlt
    unfold fetch_fpl_data
    simp only [Bool.false_eq_true, if_false, hl, if_pos hlt]
  · rintro (rfl | hnone | ⟨e, he, hge⟩)
    · unfold fetch_fpl_data
      simp only [if_pos rfl]
      exact bootstrap_mem_freshFetch_calls net cache current_time league_id
    · unfold fetch_fpl_data
      cases force_refresh
      · simp only [Bool.false_eq_true, if_false, hnone]
        exact bootstrap_mem_freshFetch_calls net cache current_time league_id
      · simp only [if_pos rfl]
        exact bootstrap_mem_freshFetch_calls net cache current_time league_id
    · unfold fetch_fpl_data
      cases force_refresh
      · simp only [Bool.false_eq_true, if_false, he, if_neg (not_lt.mpr hge)]
        exact bootstrap_mem_freshFetch_calls net cache current_time league_id
      · simp only [if_pos rfl]
        exact bootstrap_mem_freshFetch_calls net cache current_time league_id

theorem fetch_cache_ttl_witness :
    fetch_fpl_data (fun _ => Option.none) [(7, ⟨1000, ([], [], [])⟩)] 1599 7 false =
      ⟨.ok (some ([], [], [])), [(7, ⟨1000, ([], [], [])⟩)], []⟩ ∧
    BOOTSTRAP_URL ∈
      (fetch_fpl_data (fun _ => Option.none) [(7, ⟨1000, ([], [], [])⟩)] 1601 7 false).calls :=
  ⟨(fetch_cache_ttl (fun _ => Option.none) [(7, ⟨1000, ([], [], [])⟩)] 1599 7 false).1
      ⟨1000, ([], [], [])⟩ rfl rfl (by decide),
   (fetch_cache_ttl (fun _ => Option.none) [(7, ⟨1000, ([], [], [])⟩)] 1601 7 false).2
      (Or.inr (Or.inr ⟨⟨1000, ([], [], [])⟩, rfl, by decide⟩))⟩

theorem gameweeks_window_witness :
    currentGw (.arr [.obj [("is_current", .bool true), ("id", .num 5)]]) = .ok 5 ∧
    (3 ∈ gameweeksToFetch 5 ↔ (max 1 ((5 : Int) - 3) ≤ 3 ∧ (3 : Int) ≤ 5)) ∧
    currentGw (.arr []) = .ok 1 :=
  ⟨rfl,
   (gameweeks_window (.arr [.obj [("is_current", .bool true), ("id", .num 5)]]) 5 rfl).1 3,
   (gameweeks_window (.arr []) 1 rfl).2.1 [] rfl rfl ▸ rfl⟩

theorem partitions_sorted_desc_witness :
    List.Pairwise
      (fun a b : Player => b.cumulative_total_points ≤ a.cumulative_total_points)
      [⟨2, 1, 1, Option.none, Option.none, some (.str "A"), 5⟩,
       ⟨1, 1, 1, Option.none, Option.none, some (.str "A"), 3⟩] :=
  (partitions_sorted_desc
    [⟨1, 1, 1, Option.none, Option.none, some (.str "A"), 3⟩,
     ⟨2, 1, 1, Option.none, Option.none, some (.str "A"), 5⟩] (.str "A")).2.2
    [(.str "A",
      [⟨2, 1, 1, Option.none, Option.none, some (.str "A"), 5⟩,
       ⟨1, 1, 1, Option.none, Option.none, some (.str "A"), 3⟩])] rfl
    _ (List.mem_singleton.mpr rfl)

theorem mergedRow_key (stats : List StatRec) (x : Int) :
    ∀ r ∈ mergedRow stats x, r.1 = x := by
  intro r hr
  unfold mergedRow at hr
  split at hr
  · simp only [List.mem_singleton] at hr
    subst hr; rfl
  · rcases List.mem_map.mp hr with ⟨s, _, rfl⟩
    rfl

theorem filter_mergedRow_self (stats : List StatRec) (i : Int) :
    (mergedRow stats i).filter (fun r => r.1 == i) = mergedRow stats i :=
  List.filter_eq_self.mpr (fun r hr => by
    have := mergedRow_key stats i r hr
    simp [this])

theorem filter_mergedRow_ne (stats : List StatRec) {x i : Int} (h : x ≠ i) :
    (mergedRow stats x).filter (fun r => r.1 == i) = [] :=
  List.filter_eq_nil_iff.mpr (fun r hr => by
    have := mergedRow_key stats x r hr
    simp [this, h])

theorem filter_mergedPoints_not_mem {i : Int} {ids : List Int} (stats : List StatRec)
    (h : i ∉ ids) : (mergedPoints ids stats).filter (fun r => r.1 == i) = [] := by
  induction ids with
  | nil => rfl
  | cons x xs ih =>
      have hxi : x ≠ i := fun hx => h (hx ▸ List.mem_cons_self x xs)
      have hxs : i ∉ xs := fun hx => h (List.mem_cons_of_mem x hx)
      have hstep : mergedPoints (x :: xs) stats =
          mergedRow stats x ++ mergedPoints xs stats := rfl
      rw [hstep, List.filter_append, filter_mergedRow_ne stats hxi, ih hxs]
      rfl

theorem filter_mergedPoints_of_nodup {i : Int} {ids : List Int} (stats : List StatRec)
    (hnd : ids.Nodup) (hmem : i ∈ ids) :
    (mergedPoints ids stats).filter (fun r => r.1 == i) = mergedRow stats i := by
  induction ids with
  | nil => cases hmem
  | cons x xs ih =>
      have hstep : mergedPoints (x :: xs) stats =
          mergedRow stats x ++ mergedPoints xs stats := rfl
      rw [hstep, List.filter_append]
      rcases List.mem_cons.mp hmem with rfl | hmem2
      · rw [filter_mergedRow_self,
          filter_mergedPoints_not_mem stats (List.nodup_cons.mp hnd).1,
          List.append_nil]
      · have hxi : x ≠ i := fun hx => (List.nodup_cons.mp hnd).1 (hx ▸ hmem2)
        rw [filter_mergedRow_ne stats hxi, ih (List.nodup_cons.mp hnd).2 hmem2,
          List.nil_append]

theorem mergedRow_sum (stats : List StatRec) (i : Int) :
    ((mergedRow stats i).map (fun r => coercedPoints r.2)).sum =
      ((stats.filter (fun s => s.id == i)).map
        (fun s => coercedPoints s.total_points)).sum := by
  unfold mergedRow
  split
  · rename_i hnil
    rw [hnil]
    rfl
  · rw [List.map_map]
    rfl

/-- Claim C3: under unique player ids, the cumulative total points
attached to a player id equal the sum of the per-gameweek total_points
values of the records of that player over the fetched trailing window,
coercing unparseable values to zero, and equal zero for a player absent
from the records. -/
theorem cumulative_points_sum (ids : List Int) (stats : List StatRec) (i : Int)
    (hnd : ids.Nodup) (hmem : i ∈ ids) :
    cumulativeFor ids stats i =
      ((stats.filter (fun s => s.id == i)).map
        (fun s => coercedPoints s.total_points)).sum ∧
    ((∀ s ∈ stats, s.id ≠ i) → cumulativeFor ids stats i = 0) := by
  have main : cumulativeFor ids stats i =
      ((stats.filter (fun s => s.id == i)).map
        (fun s => coercedPoints s.total_points)).sum := by
    unfold cumulativeFor
    split
    · rw [filter_mergedPoints_of_nodup stats hnd hmem]
      exact mergedRow_sum stats i
    · rename_i hnone
      have h2 : stats.any (fun s => s.total_points.isSome) = false := by
        cases h3 : stats.any (fun s => s.total_points.isSome)
        · rfl
        · exact absurd h3 hnone
      symm
      apply List.sum_eq_zero
      intro x hx
      rcases List.mem_map.mp hx with ⟨s, hs, rfl⟩
      have hnot := List.any_eq_false.mp h2 s (List.mem_filter.mp hs).1
      rcases h : s.total_points with _ | v
      · rfl
      · rw [h] at hnot
        simp at hnot
  refine ⟨main, fun habs => ?_⟩
  rw [main]
  have hfil : stats.filter (fun s => s.id == i) = [] :=
    List.filter_eq_nil_iff.mpr (fun s hs => by simp [habs s hs])
  rw [hfil]
  rfl

theorem cumulative_points_sum_witness :
    cumulativeFor [1, 2, 3]
        [⟨1, 5, some (.str "3")⟩, ⟨1, 6, some (.num 4)⟩, ⟨2, 5, some (.str "x")⟩] 1 =
      (([⟨1, 5, some (.str "3")⟩, ⟨1, 6, some (.num 4)⟩,
          ⟨2, 5, some (.str "x")⟩].filter (fun s : StatRec => s.id == 1)).map
        (fun s => coercedPoints s.total_points)).sum ∧
    cumulativeFor [1, 2, 3]
        [⟨1, 5, some (.str "3")⟩, ⟨1, 6, some (.num 4)⟩, ⟨2, 5, some (.str "x")⟩] 1 = 7 ∧
    cumulativeFor [1, 2, 3]
        [⟨1, 5, some (.str "3")⟩, ⟨1, 6, some (.num 4)⟩, ⟨2, 5, some (.str "x")⟩] 2 = 0 ∧
    cumulativeFor [1, 2, 3]
        [⟨1, 5, some (.str "3")⟩, ⟨1, 6, some (.num 4)⟩, ⟨2, 5, some (.str "x")⟩] 3 = 0 :=
  ⟨(cumulative_points_sum [1, 2, 3]
      [⟨1, 5, some (.str "3")⟩, ⟨1, 6, some (.num 4)⟩, ⟨2, 5, some (.str "x")⟩] 1
      (by decide) (by decide)).1,
   by decide, by decide, by decide⟩

theorem length_filter_le_one {α : Type} (f : α → Int) (l : List α)
    (h : (l.map f).Nodup) (x : Int) :
    (l.filter (fun a => f a == x)).length ≤ 1 := by
  induction l with
  | nil => simp
  | cons a as ih =>
      rw [List.map_cons, List.nodup_cons] at h
      by_cases hax : f a = x
      · have hnil : as.filter (fun b => f b == x) = [] := by
          apply List.filter_eq_nil_iff.mpr
          intro b hb
          simp only [beq_iff_eq]
          intro hbx
          exact h.1 (List.mem_map.mpr ⟨b, hb, by rw [hbx, hax]⟩)
        simp [List.filter_cons, hax, hnil]
      · simp only [List.filter_cons, beq_iff_eq, hax, if_false]
        exact ih h.2

theorem teamRow_base (teams : List Team) (p : Element) :
    ∀ r ∈ teamRow teams p, r.base = p := by
  intro r hr
  unfold teamRow at hr
  split at hr
  · simp only [List.mem_singleton] at hr
    subst hr; rfl
  · rcases List.mem_map.mp hr with ⟨t, _, rfl⟩
    rfl

theorem teamRow_exists (teams : List Team) (p : Element) :
    ∃ r ∈ teamRow teams p, r.base = p := by
  rcases hfil : teams.filter (fun t => t.id == p.team) with _ | ⟨t, ts⟩
  · exact ⟨⟨p, Option.none⟩, by simp [teamRow, hfil], rfl⟩
  · exact ⟨⟨p, t.name⟩, by simp [teamRow, hfil], rfl⟩

theorem teamRow_nomatch (teams : List Team) (p : Element)
    (h : ∀ t ∈ teams, t.id ≠ p.team) : teamRow teams p = [⟨p, Option.none⟩] := by
  have hfil : teams.filter (fun t => t.id == p.team) = [] :=
    List.filter_eq_nil_iff.mpr (fun t ht => by simp [h t ht])
  simp [teamRow, hfil]

theorem teamRow_map_base (teams : List Team) (p : Element)
    (h : (teams.map Team.id).Nodup) : (teamRow teams p).map ElementT.base = [p] := by
  rcases hfil : teams.filter (fun t => t.id == p.team) with _ | ⟨t, ts⟩
  · simp [teamRow, hfil]
  · have hlen := length_filter_le_one Team.id teams h p.team
    rw [hfil] at hlen
    have hts : ts = [] := by
      cases ts
      · rfl
      · simp at hlen
    subst hts
    simp [teamRow, hfil]

theorem posRow_base (positions : List Position) (q : ElementT) :
    ∀ r ∈ posRow positions q, r.base = q.base ∧ r.team_name = q.team_name := by
  intro r hr
  unfold posRow at hr
  split at hr
  · simp only [List.mem_singleton] at hr
    subst hr; exact ⟨rfl, rfl⟩
  · rcases List.mem_map.mp hr with ⟨t, _, rfl⟩
    exact ⟨rfl, rfl⟩

theorem posRow_exists (positions : List Position) (q : ElementT) :
    ∃ r ∈ posRow positions q, r.base = q.base ∧ r.team_name = q.team_name := by
  rcases hfil : positions.filter (fun w => w.id == q.base.element_type) with _ | ⟨w, ws⟩
  · exact ⟨⟨q.base, q.team_name, Option.none⟩, by simp [posRow, hfil], rfl, rfl⟩
  · exact ⟨⟨q.base, q.team_name, w.singular_name⟩, by simp [posRow, hfil], rfl, rfl⟩

theorem posRow_nomatch (positions : List Position) (q : ElementT)
    (h : ∀ w ∈ positions, w.id ≠ q.base.element_type) :
    posRow positions q = [⟨q.base, q.team_name, Option.none⟩] := by
  have hfil : positions.filter (fun w => w.id == q.base.element_type) = [] :=
    List.filter_eq_nil_iff.mpr (fun w hw => by simp [h w hw])
  simp [posRow, hfil]

theorem posRow_map_base (positions : List Position) (q : ElementT)
    (h : (positions.map Position.id).Nodup) :
    (posRow positions q).map ElementTP.base = [q.base] := by
  rcases hfil : positions.filter (fun w => w.id == q.base.element_type) with _ | ⟨w, ws⟩
  · simp [posRow, hfil]
  · have hlen := length_filter_le_one Position.id positions h q.base.element_type
    rw [hfil] at hlen
    have hws : ws = [] := by
      cases ws
      · rfl
      · simp at hlen
    subst hws
    simp [posRow, hfil]

theorem joinTeams_map_base (players : List Element) (teams : List Team)
    (h : (teams.map Team.id).Nodup) :
    (joinTeams players teams).map ElementT.base = players := by
  induction players with
  | nil => rfl
  | cons p ps ih =>
      have hstep : joinTeams (p :: ps) teams = teamRow teams p ++ joinTeams ps teams := rfl
      rw [hstep, List.map_append, teamRow_map_base teams p h, ih]
      rfl

theorem joinPositions_map_base (rows : List ElementT) (positions : List Position)
    (h : (positions.map Position.id).Nodup) :
    (joinPositions rows positions).map ElementTP.base = rows.map ElementT.base := by
  induction rows with
  | nil => rfl
  | cons q qs ih =>
      have hstep : joinPositions (q :: qs) positions =
          posRow positions q ++ joinPositions qs positions := rfl
      rw [hstep, List.map_append, posRow_map_base positions q h, ih]
      rfl

/-- Claim C7: the team and position joins preserve every player row:
every input row reaches the output, every output row stems from an input
row, a row whose team or element_type key matches no team or position
row gets a null team_name or position field instead of being dropped,
and under unique team and position ids the output ids equal the input
ids exactly. -/
theorem enrichment_preserves_rows (players : List Element) (teams : List Team)
    (positions : List Position) :
    (∀ p ∈ players, ∃ r ∈ joinPositions (joinTeams players teams) positions,
        r.base = p) ∧
    (∀ r ∈ joinPositions (joinTeams players teams) positions, r.base ∈ players) ∧
    (∀ p ∈ players, (∀ t ∈ teams, t.id ≠ p.team) →
        ∃ r ∈ joinPositions (joinTeams players teams) positions,
          r.base = p ∧ r.team_name = Option.none) ∧
    (∀ p ∈ players, (∀ w ∈ positions, w.id ≠ p.element_type) →
        ∃ r ∈ joinPositions (joinTeams players teams) positions,
          r.base = p ∧ r.position = Option.none) ∧
    ((teams.map Team.id).Nodup → (positions.map Position.id).Nodup →
        (joinPositions (joinTeams players teams) positions).map
            (fun r => r.base.id) = players.map Element.id) := by
  refine ⟨?_, ?_, ?_, ?_, ?_⟩
  · intro p hp
    rcases teamRow_exists teams p with ⟨q, hq, hqb⟩
    have hqj : q ∈ joinTeams players teams := List.mem_flatMap.mpr ⟨p, hp, hq⟩
    rcases posRow_exists positions q with ⟨r, hr, hrb, _⟩
    exact ⟨r, List.mem_flatMap.mpr ⟨q, hqj, hr⟩, by rw [hrb, hqb]⟩
  · intro r hr
    rcases List.mem_flatMap.mp hr with ⟨q, hq, hrq⟩
    rcases List.mem_flatMap.mp hq with ⟨p, hp, hqp⟩
    rw [(posRow_base positions q r hrq).1, teamRow_base teams p q hqp]
    exact hp
  · intro p hp hno
    have hrow := teamRow_nomatch teams p hno
    have hq : (⟨p, Option.none⟩ : ElementT) ∈ joinTeams players teams :=
      List.mem_flatMap.mpr ⟨p, hp, by rw [hrow]; exact List.mem_singleton.mpr rfl⟩
    rcases posRow_exists positions ⟨p, Option.none⟩ with ⟨r, hr, hrb, hrt⟩
    exact ⟨r, List.mem_flatMap.mpr ⟨_, hq, hr⟩, hrb, hrt⟩
  · intro p hp hno
    rcases teamRow_exists teams p with ⟨q, hq, hqb⟩
    have hqj : q ∈ joinTeams players teams := List.mem_flatMap.mpr ⟨p, hp, hq⟩
    have hno2 : ∀ w ∈ positions, w.id ≠ q.base.element_type := by
      rw [hqb]; exact hno
    have hrow := posRow_nomatch positions q hno2
    refine ⟨⟨q.base, q.team_name, Option.none⟩,
      List.mem_flatMap.mpr ⟨q, hqj, by rw [hrow]; exact List.mem_singleton.mpr rfl⟩,
      hqb ▸ rfl, rfl⟩
  · intro ht hw
    have h1 := joinPositions_map_base (joinTeams players teams) positions hw
    have h2 := joinTeams_map_base players teams ht
    calc (joinPositions (joinTeams players teams) positions).map (fun r => r.base.id)
        = ((joinPositions (joinTeams players teams) positions).map
            ElementTP.base).map Element.id := by rw [List.map_map]; rfl
      _ = players.map Element.id := by rw [h1, h2]

theorem enrichment_preserves_rows_witness :
    (joinPositions (joinTeams [⟨1, 99, 2⟩] [⟨10, some (.str "T")⟩])
        [⟨2, some (.str "MID")⟩]).map (fun r => r.base.id) =
      [⟨1, 99, 2⟩].map Element.id :=
  (enrichment_preserves_rows [⟨1, 99, 2⟩] [⟨10, some (.str "T")⟩]
    [⟨2, some (.str "MID")⟩]).2.2.2.2 (by decide) (by decide)

theorem scalarEq_sound {a b : Json} (h : scalarEq a b = true) : a = b := by
  cases a <;> cases b <;> simp_all [scalarEq]

theorem scalarEq_refl {a : Json} (h : hashableKey a = true) : scalarEq a a = true := by
  cases a <;> simp_all [scalarEq, hashableKey]

theorem mem_dedupScalar {l : List Json} {v : Json} (hv : v ∈ l) : v ∈ dedupScalar l := by
  induction l with
  | nil => cases hv
  | cons x xs ih =>
      rcases List.mem_cons.mp hv with rfl | hv2
      · exact List.mem_cons_self _ _
      · by_cases hxv : x = v
        · exact hxv ▸ List.mem_cons_self _ _
        · refine List.mem_cons_of_mem x (List.mem_filter.mpr ⟨ih hv2, ?_⟩)
          cases hse : scalarEq x v
          · rfl
          · exact absurd (scalarEq_sound hse) hxv

theorem dedupScalar_sub {l : List Json} : ∀ a ∈ dedupScalar l, a ∈ l := by
  induction l with
  | nil => intro a ha; cases ha
  | cons x xs ih =>
      intro a ha
      rcases List.mem_cons.mp ha with rfl | ha2
      · exact List.mem_cons_self _ _
      · exact List.mem_cons_of_mem x (ih a (List.mem_filter.mp ha2).1)

theorem dedupScalar_pairwise (l : List Json) :
    (dedupScalar l).Pairwise (fun a b => scalarEq a b = false) := by
  induction l with
  | nil => exact List.Pairwise.nil
  | cons x xs ih =>
      refine List.pairwise_cons.mpr ⟨?_, ?_⟩
      · intro b hb
        have := (List.mem_filter.mp hb).2
        simpa using this
      · exact ih.sublist (List.filter_sublist _)

theorem ownerIs_unique {p : Player} {v o o' : Json} (hv : p.owner = some v)
    (h1 : ownerIs o p = true) (h2 : ownerIs o' p = true) : o = o' := by
  unfold ownerIs at h1 h2
  rw [hv] at h1 h2
  rw [← scalarEq_sound h1, ← scalarEq_sound h2]

theorem partition_perm_aux (os : List Json) (players : List Player)
    (hnd : os.Nodup)
    (hcover : ∀ p ∈ players, ∀ v, p.owner = some v → ∃ o ∈ os, scalarEq v o = true) :
    ((os.flatMap (fun o => players.filter (ownerIs o))) ++
      players.filter (fun p => p.owner.isNone)).Perm players := by
  induction os generalizing players with
  | nil =>
      simp only [List.flatMap_nil, List.nil_append]
      have hall : ∀ p ∈ players, p.owner.isNone = true := by
        intro p hp
        rcases ho : p.owner with _ | v
        · rfl
        · rcases hcover p hp v ho with ⟨o, hmem, _⟩
          cases hmem
      rw [List.filter_eq_self.mpr hall]
  | cons o os ih =>
      have hnd2 := List.nodup_cons.mp hnd
      have hsplit : ∀ o' ∈ os, players.filter (ownerIs o') =
          (players.filter (fun p => !(ownerIs o p))).filter (ownerIs o') := by
        intro o' ho'
        rw [List.filter_filter]
        apply List.filter_congr
        intro p _
        cases h1 : ownerIs o' p
        · simp
        · cases h2 : ownerIs o p
          · simp
          · rcases hown : p.owner with _ | v
            · unfold ownerIs at h1
              rw [hown] at h1
              cases h1
            · exact absurd (ownerIs_unique hown h2 h1 ▸ ho') hnd2.1
      have hnone : players.filter (fun p => p.owner.isNone) =
          (players.filter (fun p => !(ownerIs o p))).filter (fun p => p.owner.isNone) := by
        rw [List.filter_filter]
        apply List.filter_congr
        intro p _
        cases h1 : p.owner.isNone
        · simp
        · have : ownerIs o p = false := by
            unfold ownerIs
            rcases hown : p.owner with _ | v
            · rfl
            · rw [hown] at h1
              cases h1
          simp [this]
      have hcover2 : ∀ p ∈ players.filter (fun p => !(ownerIs o p)), ∀ v,
          p.owner = some v → ∃ o' ∈ os, scalarEq v o' = true := by
        intro p hp v hv
        rcases List.mem_filter.mp hp with ⟨hpp, hno⟩
        rcases hcover p hpp v hv with ⟨o', ho', hsc⟩
        rcases List.mem_cons.mp ho' with rfl | ho'2
        · exfalso
          have : ownerIs o' p = true := by
            unfold ownerIs
            rw [hv]
            exact hsc
          rw [this] at hno
          cases hno
        · exact ⟨o', ho'2, hsc⟩
      have hstep : (o :: os).flatMap (fun o' => players.filter (ownerIs o')) =
          players.filter (ownerIs o) ++
            os.flatMap (fun o' => players.filter (ownerIs o')) := rfl
      rw [hstep, List.append_assoc]
      have hinner : (os.flatMap (fun o' => players.filter (ownerIs o')) ++
          players.filter (fun p => p.owner.isNone)).Perm
            (players.filter (fun p => !(ownerIs o p))) := by
        have hrw : os.flatMap (fun o' => players.filter (ownerIs o')) =
            os.flatMap (fun o' =>
              (players.filter (fun p => !(ownerIs o p))).filter (ownerIs o')) := by
          apply List.flatMap_congr
          intro o' ho'
          exact hsplit o' ho'
        rw [hrw, hnone]
        exact ih _ hnd2.2 hcover2
      exact List.Perm.trans (hinner.append_left (players.filter (ownerIs o)))
        (List.filter_append_perm (ownerIs o) players)

theorem mem_teamTable {p : Player} {players : List Player} {o : Json} :
    p ∈ teamTable players o ↔ p ∈ players ∧ ownerIs o p = true := by
  unfold teamTable
  rw [mem_sortByPointsDesc, List.mem_filter]

theorem mem_undraftedTable {p : Player} {players : List Player} :
    p ∈ undraftedTable players ↔ p ∈ players ∧ p.owner.isNone = true := by
  unfold undraftedTable
  rw [mem_sortByPointsDesc, List.mem_filter]

theorem flatMap_perm_congr {α β : Type} (l : List α) (f g : α → List β)
    (h : ∀ a ∈ l, (f a).Perm (g a)) : (l.flatMap f).Perm (l.flatMap g) := by
  induction l with
  | nil => exact List.Perm.refl _
  | cons a as ih =>
      exact (h a (List.mem_cons_self _ _)).append
        (ih (fun b hb => h b (List.mem_cons_of_mem a hb)))

theorem teamsTables_ok {players : List Player} {tt : List (Json × List Player)}
    (htt : teamsTables players = .ok tt) :
    tt = (ownersOf players).map (fun o => (o, teamTable players o)) ∧
    ∀ p ∈ players, ∀ v, p.owner = some v → hashableKey v = true := by
  unfold teamsTables at htt
  split at htt
  · rename_i hall
    refine ⟨(Except.ok.inj htt).symm, ?_⟩
    intro p hp v hv
    have h2 := List.all_eq_true.mp hall p hp
    rw [hv] at h2
    exact h2
  · cases htt

theorem ownersOf_hashable {players : List Player}
    (hh : ∀ p ∈ players, ∀ v, p.owner = some v → hashableKey v = true) :
    ∀ o ∈ ownersOf players, hashableKey o = true := by
  intro o ho
  rcases List.mem_filterMap.mp (dedupScalar_sub o ho) with ⟨p, hp, hpo⟩
  exact hh p hp o hpo

theorem ownersOf_nodup {players : List Player}
    (hh : ∀ p ∈ players, ∀ v, p.owner = some v → hashableKey v = true) :
    (ownersOf players).Nodup := by
  have hpw := dedupScalar_pairwise (players.filterMap (fun p => p.owner))
  refine List.Pairwise.imp_of_mem ?_ hpw
  intro a b ha _ hab
  intro heq
  subst heq
  rw [scalarEq_refl (ownersOf_hashable hh a ha)] at hab
  cases hab

theorem ownersOf_cover {players : List Player} {p : Player} {v : Json}
    (hp : p ∈ players) (hv : p.owner = some v) : v ∈ ownersOf players :=
  mem_dedupScalar (List.mem_filterMap.mpr ⟨p, hp, hv⟩)

/-- Claim C4: for every successful segmentation the per-owner tables and
the undrafted table partition the unified player table: the union of all
partitions carries exactly the player ids of the unified table as a
permutation, an unowned player lies in the undrafted table and in no
owner table, and an owned player lies outside the undrafted table and in
exactly one owner table. -/
theorem partition_complete (players : List Player) (tt : List (Json × List Player))
    (htt : teamsTables players = .ok tt) :
    (((tt.flatMap (fun x => x.2)) ++ undraftedTable players).map Player.id).Perm
        (players.map Player.id) ∧
    (∀ p ∈ players,
      (p.owner = Option.none →
        p ∈ undraftedTable players ∧ ∀ x ∈ tt, p ∉ x.2) ∧
      (∀ v, p.owner = some v →
        p ∉ undraftedTable players ∧
        ((v, teamTable players v) ∈ tt ∧ p ∈ teamTable players v) ∧
        (∀ x ∈ tt, p ∈ x.2 → x = (v, teamTable players v)))) := by
  rcases teamsTables_ok htt with ⟨httEq, hh⟩
  have hcover : ∀ p ∈ players, ∀ v, p.owner = some v →
      ∃ o ∈ ownersOf players, scalarEq v o = true := by
    intro p hp v hv
    exact ⟨v, ownersOf_cover hp hv,
      scalarEq_refl (hh p hp v hv)⟩
  constructor
  · have hA : (tt.flatMap (fun x => x.2)).Perm
        ((ownersOf players).flatMap (fun o => players.filter (ownerIs o))) := by
      rw [httEq, List.flatMap_map]
      exact flatMap_perm_congr _ _ _ (fun o _ => sortByPointsDesc_perm _)
    have hB : (undraftedTable players).Perm
        (players.filter (fun p => p.owner.isNone)) := sortByPointsDesc_perm _
    have hC : ((tt.flatMap (fun x => x.2)) ++ undraftedTable players).Perm players :=
      (hA.append hB).trans
        (partition_perm_aux (ownersOf players) players (ownersOf_nodup hh) hcover)
    exact hC.map Player.id
  · intro p hp
    constructor
    · intro hnone
      refine ⟨mem_undraftedTable.mpr ⟨hp, by rw [hnone]; rfl⟩, ?_⟩
      intro x hx hpx
      rw [httEq] at hx
      rcases List.mem_map.mp hx with ⟨o, _, rfl⟩
      have h2 := (mem_teamTable.mp hpx).2
      unfold ownerIs at h2
      rw [hnone] at h2
      cases h2
    · intro v hv
      have hhv := hh p hp v hv
      have hself : ownerIs v p = true := by
        unfold ownerIs
        rw [hv]
        exact scalarEq_refl hhv
      refine ⟨?_, ⟨?_, mem_teamTable.mpr ⟨hp, hself⟩⟩, ?_⟩
      · intro hmem
        have h2 := (mem_undraftedTable.mp hmem).2
        rw [hv] at h2
        cases h2
      · rw [httEq]
        exact List.mem_map.mpr ⟨v, ownersOf_cover hp hv, rfl⟩
      · intro x hx hpx
        rw [httEq] at hx
        rcases List.mem_map.mp hx with ⟨o, _, rfl⟩
        have h2 := (mem_teamTable.mp hpx).2
        rw [ownerIs_unique hv h2 hself]

theorem processPick_skips (e2n : List (Json × Json)) (d : List (Json × Json))
    (pick : Json) (h : pickSkippable e2n pick) : processPick e2n d pick = .ok d := by
  rcases h with hno | ⟨pkvs, rfl, hcase⟩
  · cases pick
    case obj kvs => exact absurd rfl (hno kvs)
    all_goals rfl
  · rcases hcase with h1 | h1 | h1 | h1 | ⟨ev, hev, hevh, hevm⟩
    · simp [processPick, h1]
    · rcases hen : dictLookup pkvs "entry" with _ | ev
      · simp [processPick, h1, hen]
      · simp [processPick, h1, hen, truthy]
    · rcases hel : dictLookup pkvs "element" with _ | pv
      · simp [processPick, h1, hel]
      · simp [processPick, h1, hel]
    · rcases hel : dictLookup pkvs "element" with _ | pv
      · simp [processPick, h1, hel]
      · simp [processPick, h1, hel, truthy]
    · rcases hel : dictLookup pkvs "element" with _ | pv
      · simp [processPick, hel]
      · cases htp : truthy pv
        · simp [processPick, hel, hev, htp]
        · simp [processPick, hel, hev, htp, hevh, hevm]

theorem processPick_preserves (e2n : List (Json × Json)) (pid : Int)
    {d d' : List (Json × Json)} {pick : Json}
    (h : processPick e2n d pick = .ok d')
    (hdef : ∀ pkvs, pick = .obj pkvs →
      dictLookup pkvs "element" = some (.num pid) → pickSkippable e2n pick)
    (hinv : ∀ kv ∈ d, scalarEq kv.1 (.num pid) = false) :
    ∀ kv ∈ d', scalarEq kv.1 (.num pid) = false := by
  rcases pick with _ | b | n | s | l | pkvs
  case obj =>
    rcases hel : dictLookup pkvs "element" with _ | pv
    · simp [processPick, hel] at h
      subst h
      exact hinv
    · rcases hen : dictLookup pkvs "entry" with _ | ev
      · simp [processPick, hel, hen] at h
        subst h
        exact hinv
      · cases htp : truthy pv
        · simp [processPick, hel, hen, htp] at h
          subst h
          exact hinv
        · cases hte : truthy ev
          · simp [processPick, hel, hen, htp, hte] at h
            subst h
            exact hinv
          · cases hh : hashableKey ev
            · simp [processPick, hel, hen, htp, hte, hh] at h
            · cases hm : jMem e2n ev
              · simp [processPick, hel, hen, htp, hte, hh, hm] at h
                subst h
                exact hinv
              · cases hph : hashableKey pv
                · simp [processPick, hel, hen, htp, hte, hh, hm, hph] at h
                · simp [processPick, hel, hen, htp, hte, hh, hm, hph] at h
                  subst h
                  intro kv hkv
                  rcases List.mem_append.mp hkv with hkv2 | hkv2
                  · exact hinv kv hkv2
                  · rw [List.mem_singleton.mp hkv2]
                    cases hsc : scalarEq pv (.num pid)
                    · rfl
                    · exfalso
                      have hpv : pv = .num pid := scalarEq_sound hsc
                      subst hpv
                      rcases hdef pkvs rfl hel with hno | ⟨pkvs2, heq, hcase⟩
                      · exact hno pkvs rfl
                      · cases heq
                        rcases hcase with h1 | h1 | h1 | h1 | ⟨ev2, hev2, _, hevm2⟩
                        · rw [hel] at h1
                          cases h1
                        · rw [hel] at h1
                          have hz : pid = 0 := Json.num.inj (Option.some.inj h1)
                          subst hz
                          simp [truthy] at htp
                        · rw [hen] at h1
                          cases h1
                        · rw [hen] at h1
                          have hz : ev = .num 0 := Option.some.inj h1
                          subst hz
                          simp [truthy] at hte
                        · rw [hen] at hev2
                          have hz : ev2 = ev := (Option.some.inj hev2).symm
                          subst hz
                          rw [hm] at hevm2
                          cases hevm2
  all_goals
    simp [processPick] at h
    subst h
    exact hinv

theorem foldlM_processPick_preserves (e2n : List (Json × Json)) (pid : Int)
    (picks : List Json) :
    ∀ d0 p2t, List.foldlM (processPick e2n) d0 picks = .ok p2t →
    (∀ pick ∈ picks, ∀ pkvs, pick = .obj pkvs →
      dictLookup pkvs "element" = some (.num pid) → pickSkippable e2n pick) →
    (∀ kv ∈ d0, scalarEq kv.1 (.num pid) = false) →
    ∀ kv ∈ p2t, scalarEq kv.1 (.num pid) = false := by
  induction picks with
  | nil =>
      intro d0 p2t h _ hinv
      have h2 : d0 = p2t := Except.ok.inj h
      subst h2
      exact hinv
  | cons pick rest ih =>
      intro d0 p2t h hdef hinv
      have h2 : (processPick e2n d0 pick) >>=
          (fun d1 => List.foldlM (processPick e2n) d1 rest) = Except.ok p2t := h
      rcases hstep : processPick e2n d0 pick with e | d1
      · rw [hstep] at h2
        exact Except.noConfusion (h2 : (Except.error e : Except Unit _) = Except.ok p2t)
      · rw [hstep] at h2
        exact ih d1 p2t (h2 : List.foldlM (processPick e2n) d1 rest = Except.ok p2t)
          (fun q hq => hdef q (List.mem_cons_of_mem pick hq))
          (processPick_preserves e2n pid hstep
            (hdef pick (List.mem_cons_self _ _)) hinv)

theorem jLookup_eq_none {d : List (Json × Json)} {k : Json}
    (h : ∀ kv ∈ d, scalarEq kv.1 k = false) : jLookup d k = Option.none := by
  unfold jLookup
  rw [List.find?_eq_none.mpr]
  · rfl
  · intro kv hkv
    rw [h kv (List.mem_reverse.mp hkv)]
    exact Bool.false_ne_true

theorem withOwner_owner (rows : List ElementTP) (p2t : List (Json × Json)) :
    ∀ r ∈ withOwner rows p2t, r.2.2.2 = jLookup p2t (.num r.1.id) := by
  intro r hr
  rcases List.mem_map.mp hr with ⟨q, _, rfl⟩
  rfl

theorem withCumulative_owner (rows : List ElementTP) (p2t : List (Json × Json))
    (stats : List StatRec) :
    ∀ p ∈ withCumulative (withOwner rows p2t) stats,
      p.owner = jLookup p2t (.num p.id) := by
  intro p hp
  rcases List.mem_map.mp hp with ⟨r, hr, rfl⟩
  exact withOwner_owner rows p2t r hr

/-- Claim C10 (amended): ownership resolution skips, without failing the
fetch, every pick that is not a record, or whose element value is absent
or 0, or whose entry value is absent or 0, or whose entry is a hashable
value that is not the id of a well-formed league entry; a player
referenced only by such skipped picks ends with a null owner and lies in
the undrafted table, and when the draft-choices feed is NONE the
ownership map is empty, so every player is undrafted.  The original
claim, without the hashable qualifier, fails: a truthy unhashable entry
value raises instead of being skipped. -/
theorem draft_pick_resolution :
    (∀ e2n d pick, pickSkippable e2n pick → processPick e2n d pick = .ok d) ∧
    (∀ e2n picks p2t (pid : Int),
      List.foldlM (processPick e2n) [] picks = .ok p2t →
      (∀ pick ∈ picks, ∀ pkvs, pick = .obj pkvs →
        dictLookup pkvs "element" = some (.num pid) → pickSkippable e2n pick) →
      jLookup p2t (.num pid) = Option.none) ∧
    (∀ rows stats p2t (pid : Int),
      jLookup p2t (.num pid) = Option.none →
      ∀ p ∈ withCumulative (withOwner rows p2t) stats, p.id = pid →
        p.owner = Option.none ∧
        p ∈ undraftedTable (withCumulative (withOwner rows p2t) stats)) ∧
    (∀ e2n, playerToTeam Option.none e2n = .ok []) ∧
    (∀ k, jLookup ([] : List (Json × Json)) k = Option.none) := by
  refine ⟨processPick_skips, ?_, ?_, fun _ => rfl, fun _ => rfl⟩
  · intro e2n picks p2t pid h hdef
    exact jLookup_eq_none
      (foldlM_processPick_preserves e2n pid picks [] p2t h hdef (fun kv hkv => by cases hkv))
  · intro rows stats p2t pid hnone p hp hpid
    have howner : p.owner = Option.none := by
      rw [withCumulative_owner rows p2t stats p hp, hpid, hnone]
    exact ⟨howner, mem_undraftedTable.mpr ⟨hp, by rw [howner]; rfl⟩⟩

/-- Claim C10 counterexample: a pick whose entry value is a truthy
unhashable value (a nonempty list) is not the id of any well-formed
league entry, yet it is not skipped: the membership test on the entry
dictionary raises a `TypeError`, failing the whole fetch. -/
theorem draft_pick_crash :
    dictLookup [("element", Json.num 5), ("entry", Json.arr [Json.num 1])] "entry" =
      some (.arr [.num 1]) ∧
    jMem [] (.arr [.num 1]) = false ∧
    processPick [] [] (.obj [("element", .num 5), ("entry", .arr [.num 1])]) =
      .error () :=
  ⟨rfl, rfl, rfl⟩

theorem draft_pick_resolution_witness :
    processPick [] [] (.obj [("entry", .num 3)]) = .ok [] ∧
    playerToTeam Option.none [] = .ok [] :=
  ⟨draft_pick_resolution.1 [] [] (.obj [("entry", .num 3)])
     (Or.inr ⟨[("entry", Json.num 3)], rfl, Or.inl rfl⟩),
   draft_pick_resolution.2.2.2.1 []⟩

theorem partition_complete_witness :
    ((([((Json.str "A"),
          [(⟨1, 0, 0, Option.none, Option.none, some (.str "A"), 3⟩ : Player)])].flatMap
         (fun x => x.2)) ++
        undraftedTable
          [⟨1, 0, 0, Option.none, Option.none, some (.str "A"), 3⟩,
           ⟨2, 0, 0, Option.none, Option.none, Option.none, 1⟩]).map Player.id).Perm
      ([(⟨1, 0, 0, Option.none, Option.none, some (.str "A"), 3⟩ : Player),
        ⟨2, 0, 0, Option.none, Option.none, Option.none, 1⟩].map Player.id) :=
  (partition_complete
    [⟨1, 0, 0, Option.none, Option.none, some (.str "A"), 3⟩,
     ⟨2, 0, 0, Option.none, Option.none, Option.none, 1⟩]
    [((Json.str "A"),
      [(⟨1, 0, 0, Option.none, Option.none, some (.str "A"), 3⟩ : Player)])]
    rfl).1

theorem dictLookup_none_any_false {kvs : List (String × Json)} {k : String}
    (h : dictLookup kvs k = Option.none) :
    kvs.any (fun p => p.1 == k) = false := by
  rw [List.any_eq_false]
  intro p hp
  unfold dictLookup at h
  rcases hfind : kvs.reverse.find? (fun q => q.1 == k) with _ | q
  · have := List.find?_eq_none.mp hfind p (List.mem_reverse.mpr hp)
    simpa using this
  · rw [hfind] at h
    cases h

theorem validate_obj_false (kvs : List (String × Json))
    (h : ¬(isListOpt (dictLookup kvs "elements") = true ∧
      isListOpt (dictLookup kvs "teams") = true ∧
      isListOpt (dictLookup kvs "element_types") = true)) :
    validateBootstrapLists (.obj kvs) = .ok false := by
  cases hA : isListOpt (dictLookup kvs "elements")
  · simp [validateBootstrapLists, pyGet, hA]
  · cases hB : isListOpt (dictLookup kvs "teams")
    · simp [validateBootstrapLists, pyGet, hA, hB]
    · cases hC : isListOpt (dictLookup kvs "element_types")
      · simp [validateBootstrapLists, pyGet, hA, hB, hC]
      · exact absurd ⟨hA, hB, hC⟩ h

theorem validate_obj_true (kvs : List (String × Json))
    (hA : isListOpt (dictLookup kvs "elements") = true)
    (hB : isListOpt (dictLookup kvs "teams") = true)
    (hC : isListOpt (dictLookup kvs "element_types") = true) :
    validateBootstrapLists (.obj kvs) = .ok true := by
  simp [validateBootstrapLists, pyGet, hA, hB, hC]

theorem freshFetch_of_bad (net : String → Option Json) (cache : Cache)
    (t lid : Int)
    (hbad : badBootstrapPayload (net BOOTSTRAP_URL) ∨
      ((∃ kvs, net BOOTSTRAP_URL = some (.obj kvs)) ∧
        badLeaguePayload (net (leagueURL lid)))) :
    (freshFetch net cache t lid).result = .ok Option.none ∧
    (freshFetch net cache t lid).cache = cache := by
  rcases hbad with hb | ⟨⟨kvs, hobj⟩, hl⟩
  · rcases hb with hnone | ⟨kvs, hbs, hnotall⟩
    · unfold freshFetch
      rw [hnone]
      exact ⟨rfl, rfl⟩
    · unfold freshFetch
      rw [hbs]
      cases htr : truthy (.obj kvs)
      · simp [htr]
      · simp only [htr, Bool.not_true, if_false, pyIn]
        cases hany : kvs.any (fun p => p.1 == "elements")
        · simp [hany]
        · simp [hany, validate_obj_false kvs hnotall]
  · unfold freshFetch
    rw [hobj]
    cases htr : truthy (.obj kvs)
    · simp [htr]
    · simp only [htr, Bool.not_true, if_false, pyIn]
      cases hany : kvs.any (fun p => p.1 == "elements")
      · simp [hany]
      · cases hA : isListOpt (dictLookup kvs "elements")
        · simp [hany, validate_obj_false kvs (by simp [hA])]
        · cases hB : isListOpt (dictLookup kvs "teams")
          · simp [hany, validate_obj_false kvs (by simp [hA, hB])]
          · cases hC : isListOpt (dictLookup kvs "element_types")
            · simp [hany, validate_obj_false kvs (by simp [hA, hB, hC])]
            · simp only [hany, validate_obj_true kvs hA hB hC]
              rcases hl with hlnone | ⟨lkvs, hlobj, hlkey⟩
              · rw [hlnone]
                simp
              · rw [hlobj]
                cases htl : truthy (.obj lkvs)
                · simp [htl]
                · simp [htl, pyIn, dictLookup_none_any_false hlkey]

theorem fetch_eq_fresh (net : String → Option Json) (cache : Cache)
    (current_time league_id : Int) (force_refresh : Bool)
    (hmiss : force_refresh = true ∨ cacheLookup cache league_id = Option.none ∨
      (∃ e, cacheLookup cache league_id = some e ∧
        CACHE_DURATION_SECONDS ≤ current_time - e.timestamp)) :
    fetch_fpl_data net cache current_time league_id force_refresh =
      freshFetch net cache current_time league_id := by
  unfold fetch_fpl_data
  rcases hmiss with rfl | hnone | ⟨e, he, hge⟩
  · simp
  · cases force_refresh <;> simp [hnone]
  · cases force_refresh
    · simp [he, not_lt.mpr hge]
    · simp

/-- Claim C2: on a cache miss, if the bootstrap payload is NONE or is a
record whose elements, teams or element_types entry is not a list, or
the league payload is NONE or is a record lacking the league_entries
key, then fetch_fpl_data returns the all-NONE triple and the cache is
left exactly as it was. -/
theorem fetch_critical_failure (net : String → Option Json) (cache : Cache)
    (current_time league_id : Int) (force_refresh : Bool)
    (hmiss : force_refresh = true ∨ cacheLookup cache league_id = Option.none ∨
      (∃ e, cacheLookup cache league_id = some e ∧
        CACHE_DURATION_SECONDS ≤ current_time - e.timestamp))
    (hbad : badBootstrapPayload (net BOOTSTRAP_URL) ∨
      ((∃ kvs, net BOOTSTRAP_URL = some (.obj kvs)) ∧
        badLeaguePayload (net (leagueURL league_id)))) :
    (fetch_fpl_data net cache current_time league_id force_refresh).result =
      .ok Option.none ∧
    (fetch_fpl_data net cache current_time league_id force_refresh).cache = cache := by
  rw [fetch_eq_fresh net cache current_time league_id force_refresh hmiss]
  exact freshFetch_of_bad net cache current_time league_id hbad

theorem fetch_critical_failure_witness :
    (fetch_fpl_data
      (fun u => if u = BOOTSTRAP_URL then
          some (.obj [("elements", .str "bad"), ("teams", .arr []),
            ("element_types", .arr [])])
        else Option.none)
      [] 0 7 false).result = .ok Option.none ∧
    (fetch_fpl_data
      (fun u => if u = BOOTSTRAP_URL then
          some (.obj [("elements", .str "bad"), ("teams", .arr []),
            ("element_types", .arr [])])
        else Option.none)
      [] 0 7 false).cache = [] :=
  fetch_critical_failure _ [] 0 7 false (Or.inr (Or.inl rfl))
    (Or.inl (Or.inr ⟨[("elements", .str "bad"), ("teams", .arr []),
      ("element_types", .arr [])], rfl, by decide⟩))
